import Mathlib

/-!
Shallow embedding of the gnco trajectory library (package gnco and its
orbits subpackage) over the real numbers, together with theorems settling
the specification claims. Go float64 values are modelled as real numbers;
IEEE artifacts (signed zero, NaN/Inf propagation) are noted at the few
definitions where Go's semantics would differ from real arithmetic.
-/

noncomputable section

open Real

open scoped Classical

namespace Gnco

/-! ### Vector and tensor substrate (md3, treated as primitive) -/

abbrev Vec3 := Fin 3 → ℝ

abbrev Mat3 := Matrix (Fin 3) (Fin 3) ℝ

/-- md3 vector constructor. -/
def vec3 (x y z : ℝ) : Vec3 := ![x, y, z]

/-- md3.MulMatVec: matrix times vector. -/
def mulMatVec (m : Mat3) (v : Vec3) : Vec3 := m.mulVec v

/-- md3.MulMatVecTrans: transpose of matrix times vector. -/
def mulMatVecTrans (m : Mat3) (v : Vec3) : Vec3 := m.transpose.mulVec v

/-- md3.MulMat3: matrix product. -/
def mulMat3 (a b : Mat3) : Mat3 := a * b

/-- md3.Norm: euclidean norm of a 3-vector. -/
def norm3 (v : Vec3) : ℝ := Real.sqrt (v 0 * v 0 + v 1 * v 1 + v 2 * v 2)

/-- md3.Scale: scalar times vector. -/
def scale3 (k : ℝ) (v : Vec3) : Vec3 := fun i => k * v i

/-- md3.Add: vector addition. -/
def add3 (a b : Vec3) : Vec3 := fun i => a i + b i

/-- gnco's mat3 helper: row-major 3x3 matrix constructor. -/
def mat3 (a b c d e f g h i : ℝ) : Mat3 := !![a, b, c; d, e, f; g, h, i]

/-- math.Hypot over the reals. -/
def hypot (x y : ℝ) : ℝ := Real.sqrt (x * x + y * y)

/-- math.Atan2 over the reals for a first argument that is either nonzero
or a positive IEEE zero: it coincides with the principal argument of the
complex number x + y*i, with atan2 0 0 = 0 as in Go. Call sites where the
Go program can pass a negative IEEE zero must model the zero's sign
explicitly; see atan2neg. -/
def atan2 (y x : ℝ) : ℝ := Complex.arg ⟨x, y⟩

/-- Go's math.Atan2 applied to the IEEE negation -q of a real value q.
When q is nonzero this is ordinary atan2 of -q; when q is zero the float
program passes negative zero (-0.0), for which Go documents
Atan2(-0, x < 0) = -pi and Atan2(-0, x >= 0) = -0, so that zero branch is
modelled explicitly rather than through the signless real zero. -/
def atan2neg (q x : ℝ) : ℝ :=
  if q = 0 then (if x < 0 then -π else 0)
  else atan2 (-q) x

/-! ### World (planet model) -/

/-- Universal gravitational constant bigG [N.m^2.kg^-2]. -/
def bigG : ℝ := 6.673e-11

/-- World: planetary constants, as in the Go struct. -/
structure World where
  Mass : ℝ
  C20 : ℝ
  SemiMajorAxis : ℝ
  Rotation : ℝ
  Radius : ℝ
  seaLevelRadius : ℝ
  flattening : ℝ
  celestialLong : ℝ
  Ke : ℝ
  J2 : ℝ
  J3 : ℝ
  J4 : ℝ

/-- World.G: gravitational parameter = G * mass of world. -/
def World.G (w : World) : ℝ := w.Mass * bigG

/-- World.Day: amount of seconds in a day, 2*pi/Rotation. -/
def World.Day (w : World) : ℝ := 2 * π / w.Rotation

/-- World.TEI: earth-fixed wrt inertial transformation tensor at epochTime.
The Go code computes sincos(epochTime * (1/Day())). -/
def World.TEI (w : World) (epochTime : ℝ) : Mat3 :=
  let daysPerSec := 1 / w.Day
  let s := Real.sin (epochTime * daysPerSec)
  let c := Real.cos (epochTime * daysPerSec)
  mat3 c s 0 (-s) c 0 0 0 1

/-! ### Coordinate systems -/

/-- GeocentricCoords: longitude, latitude, elevation plus owning world. -/
structure GeocentricCoords where
  Long : ℝ
  Lat : ℝ
  Elev : ℝ
  w : World

/-- GeodesicCoords wraps a GeocentricCoords, as in the Go source. -/
structure GeodesicCoords where
  c : GeocentricCoords

/-- GeocentricCoords.Geodesic. -/
def GeocentricCoords.Geodesic (g : GeocentricCoords) : GeodesicCoords := ⟨g⟩

/-- GeocentricCoords.Radius: distance from planet center. -/
def GeocentricCoords.Radius (g : GeocentricCoords) : ℝ := g.w.Radius + g.Elev

/-- GeocentricCoords.EarthFixedCoords: ECEF position vector at epochTime. -/
def GeocentricCoords.EarthFixedCoords (g : GeocentricCoords) (epochTime : ℝ) : Vec3 :=
  let slon := Real.sin (g.Long + g.w.Rotation * epochTime)
  let clon := Real.cos (g.Long + g.w.Rotation * epochTime)
  let slat := Real.sin g.Lat
  let clat := Real.cos g.Lat
  scale3 (g.Elev + g.w.Radius) (vec3 (clat * clon) (clat * slon) slat)

/-- GeocentricCoords.TGE: geographic wrt earth-fixed rotation tensor. -/
def GeocentricCoords.TGE (g : GeocentricCoords) : Mat3 :=
  let slo := Real.sin g.Long
  let clo := Real.cos g.Long
  let sla := Real.sin g.Lat
  let cla := Real.cos g.Lat
  mat3 (-sla * clo) (-sla * slo) cla (-slo) clo 0 (-cla * clo) (-cla * slo) (-sla)

/-- GeocentricCoords.AGravG: spherical gravity in geographic coordinates. -/
def GeocentricCoords.AGravG (g : GeocentricCoords) : Vec3 :=
  let dbi := g.Radius
  vec3 0 0 (g.w.G / (dbi * dbi))

/-- The Go source writes sqrtHalf as a decimal literal equal to Sqrt(0.5)
to double precision; we embed the exact value. -/
def sqrtHalf : ℝ := Real.sqrt 0.5

/-- GeodesicCoords.AGravG: oblate (J2/C20) gravity in geographic coordinates. -/
def GeodesicCoords.AGravG (g : GeodesicCoords) : Vec3 :=
  let dum2 := 3 * sqrtHalf
  let w := g.c.w
  let dbi := g.c.Radius
  let dum1 := w.G / (dbi * dbi)
  let dum3 := (w.SemiMajorAxis / dbi) * (w.SemiMajorAxis / dbi)
  let sinlat := Real.sin g.c.Lat
  let coslat := Real.cos g.c.Lat
  vec3 (-dum1 * dum2 * w.C20 * dum3 * sinlat * coslat) 0
    (dum1 * (1 + dum2 / 2 * w.C20 * dum3 * (3 * sinlat * sinlat - 1)))

/-- clampLongLat limits rad to [-pi, pi] by adding or subtracting a single
full turn when outside the range. -/
def clampLongLat (rad : ℝ) : ℝ :=
  if rad < -π then rad + 2 * π
  else if rad > π then rad - 2 * π
  else rad

/-- asinlong returns the longitude given y and x earth-fixed coordinates,
using the quadrant-aware arcsine algorithm of the Go source. -/
def asinlong (y x : ℝ) : ℝ :=
  let long := Real.arcsin (y / hypot x y)
  if x < 0 ∧ 0 ≤ y then π - long
  else if x < 0 ∧ y < 0 then π - long
  else if 0 ≤ x ∧ y < 0 then 2 * π + long
  else long

/-- World.GeocentricFromEarthFixedCoords: re-derive lat/long/elev from an
earth-fixed position vector at an epoch time. -/
def World.GeocentricFromEarthFixedCoords (w : World) (sBIE : Vec3) (epochTime : ℝ) :
    GeocentricCoords :=
  let dbi := norm3 sBIE
  let lat := Real.arcsin (sBIE 2 / dbi)
  let elev := dbi - w.Radius
  let long := clampLongLat (asinlong (sBIE 1) (sBIE 0) - w.Rotation * epochTime + w.celestialLong)
  { Long := long, Lat := lat, Elev := elev, w := w }

/-- World.GeocentricFromDegrees: construction from degrees; the Go code
panics when the elevation is below the negated planet radius, modelled
as the none result. -/
def World.GeocentricFromDegrees (w : World) (longDeg latDeg elevationAboveRefSphere : ℝ) :
    Option GeocentricCoords :=
  if elevationAboveRefSphere < -w.Radius then none
  else some
    { Long := clampLongLat (π / 180 * longDeg)
      Lat := clampLongLat (π / 180 * latDeg)
      Elev := elevationAboveRefSphere
      w := w }

end Gnco

namespace Gnco

/-- A concrete world with rotation rate 2*pi used to evaluate the TEI claim. -/
def w1 : World :=
  { Mass := 1, C20 := 0, SemiMajorAxis := 1, Rotation := 2 * π, Radius := 1
    seaLevelRadius := 1, flattening := 0, celestialLong := 0
    Ke := 0, J2 := 0, J3 := 0, J4 := 0 }

end Gnco

/-- C1: the claim states TEI(t) rotates by angle Rotation*t; the code computes
sincos(t / Day) = sincos(Rotation*t/(2*pi)), a factor 2*pi short. At
Rotation = 2*pi and t = 1/4 the code's (0,0) entry is cos(1/4) while the
claimed entry is cos(Rotation*t) = cos(pi/2) = 0, and cos(1/4) is positive,
so the two differ. -/
theorem c1_tei_angle_mismatch :
    Gnco.w1.TEI (1 / 4) 0 0 = Real.cos (1 / 4) ∧
      Real.cos (Gnco.w1.Rotation * (1 / 4)) = 0 ∧
      Gnco.w1.TEI (1 / 4) 0 0 ≠ Real.cos (Gnco.w1.Rotation * (1 / 4)) := by
  have hday : Gnco.w1.Day = 1 := by
    simp [Gnco.World.Day, Gnco.w1]
    rw [div_self (by positivity)]
  have hentry : Gnco.w1.TEI (1 / 4) 0 0 = Real.cos (1 / 4) := by
    simp [Gnco.World.TEI, Gnco.mat3, hday]
  have hrot : Gnco.w1.Rotation * (1 / 4 : ℝ) = π / 2 := by
    simp [Gnco.w1]; ring
  have hcos0 : Real.cos (Gnco.w1.Rotation * (1 / 4)) = 0 := by
    rw [hrot, Real.cos_pi_div_two]
  refine ⟨hentry, hcos0, ?_⟩
  rw [hentry, hcos0]
  have hpos : 0 < Real.cos (1 / 4) := by
    apply Real.cos_pos_of_mem_Ioo
    constructor
    · nlinarith [Real.pi_gt_three]
    · nlinarith [Real.pi_gt_three]
  exact ne_of_gt hpos

namespace Gnco

/-- A concrete geocentric coordinate state bound to w1 (whose C20 is zero). -/
def g5 : GeocentricCoords := { Long := 0, Lat := 1, Elev := 2, w := w1 }

/-- Helper: clampLongLat maps any value within one full turn of the range
[-pi, pi] back into [-pi, pi]. -/
theorem clampLongLat_mem (rad : ℝ) (h1 : -3 * π ≤ rad) (h2 : rad ≤ 3 * π) :
    -π ≤ clampLongLat rad ∧ clampLongLat rad ≤ π := by
  unfold clampLongLat
  split_ifs with ha hb
  · constructor <;> linarith
  · constructor <;> linarith
  · constructor <;> linarith

end Gnco

/-- C5: when the second zonal harmonic coefficient C20 is zero, the oblate
(geodesic) gravity vector coincides with the spherical (geocentric) one:
zero horizontal (North) component and vertical component equal to the
gravitational parameter divided by the squared radial distance. -/
theorem c5_oblate_reduces_to_spherical (g : Gnco.GeocentricCoords) (h : g.w.C20 = 0) :
    g.Geodesic.AGravG = g.AGravG ∧
      g.Geodesic.AGravG 0 = 0 ∧
      g.Geodesic.AGravG 2 = g.w.G / (g.Radius * g.Radius) := by
  have hmain : g.Geodesic.AGravG = g.AGravG := by
    funext i
    fin_cases i <;>
      simp [Gnco.GeodesicCoords.AGravG, Gnco.GeocentricCoords.AGravG,
        Gnco.GeocentricCoords.Geodesic, Gnco.vec3, h]
  refine ⟨hmain, ?_, ?_⟩ <;>
    simp [Gnco.GeodesicCoords.AGravG, Gnco.GeocentricCoords.Geodesic, Gnco.vec3, h]

/-- Witness for C5 at the concrete state g5 bound to the world w1 with C20 = 0. -/
theorem c5_oblate_reduces_to_spherical_witness :
    Gnco.g5.w.C20 = 0 ∧
      (Gnco.g5.Geodesic.AGravG = Gnco.g5.AGravG ∧
        Gnco.g5.Geodesic.AGravG 0 = 0 ∧
        Gnco.g5.Geodesic.AGravG 2 = Gnco.g5.w.G / (Gnco.g5.Radius * Gnco.g5.Radius)) := by
  have h : Gnco.g5.w.C20 = 0 := by norm_num [Gnco.g5, Gnco.w1]
  exact ⟨h, c5_oblate_reduces_to_spherical Gnco.g5 h⟩

/-- C4 counterexample: for the world w1 (rotation rate 2*pi, celestial
longitude 0), re-deriving coordinates from the earth-fixed vector (1,0,0)
at epoch time 2 yields longitude -2*pi, which lies outside [-pi, pi]: the
single-turn clamp cannot normalize an unnormalized longitude of -4*pi. -/
theorem c4_long_out_of_range_counterexample :
    (Gnco.w1.GeocentricFromEarthFixedCoords (Gnco.vec3 1 0 0) 2).Long = -2 * π ∧
      (Gnco.w1.GeocentricFromEarthFixedCoords (Gnco.vec3 1 0 0) 2).Long < -π := by
  have hasin : Gnco.asinlong ((Gnco.vec3 1 0 0) 1) ((Gnco.vec3 1 0 0) 0) = 0 := by
    have h10 : (Gnco.vec3 1 0 0) 1 = 0 := by simp [Gnco.vec3]
    have h00 : (Gnco.vec3 1 0 0) 0 = 1 := by simp [Gnco.vec3]
    rw [h10, h00]
    unfold Gnco.asinlong
    norm_num
  have hlong : (Gnco.w1.GeocentricFromEarthFixedCoords (Gnco.vec3 1 0 0) 2).Long =
      Gnco.clampLongLat (0 - Gnco.w1.Rotation * 2 + Gnco.w1.celestialLong) := by
    unfold Gnco.World.GeocentricFromEarthFixedCoords
    rw [hasin]
  have harg : (0 : ℝ) - Gnco.w1.Rotation * 2 + Gnco.w1.celestialLong = -4 * π := by
    simp [Gnco.w1]; ring
  have hclamp : Gnco.clampLongLat (-4 * π) = -2 * π := by
    unfold Gnco.clampLongLat
    have hpi := Real.pi_pos
    rw [if_pos (by linarith)]
    ring
  rw [hlong, harg, hclamp]
  have hpi := Real.pi_pos
  exact ⟨rfl, by linarith⟩

/-- C4 amended: longitude and latitude land in [-pi, pi] after every
assignment, provided the pre-clamp value lies within one full turn of the
range (in [-3*pi, 3*pi]); re-derived latitude always lies in [-pi, pi]
since it is an arcsine. (The original claim, quantifying over arbitrary
epoch times and degree inputs, is refuted by the counterexample.) -/
theorem c4_long_lat_range :
    (∀ rad : ℝ, -3 * π ≤ rad → rad ≤ 3 * π →
      -π ≤ Gnco.clampLongLat rad ∧ Gnco.clampLongLat rad ≤ π) ∧
    (∀ (w : Gnco.World) (longDeg latDeg elev : ℝ) (g : Gnco.GeocentricCoords),
      w.GeocentricFromDegrees longDeg latDeg elev = some g →
      (-3 * π ≤ π / 180 * longDeg → π / 180 * longDeg ≤ 3 * π →
        -π ≤ g.Long ∧ g.Long ≤ π) ∧
      (-3 * π ≤ π / 180 * latDeg → π / 180 * latDeg ≤ 3 * π →
        -π ≤ g.Lat ∧ g.Lat ≤ π)) ∧
    (∀ (w : Gnco.World) (s : Gnco.Vec3) (t : ℝ),
      (-π ≤ (w.GeocentricFromEarthFixedCoords s t).Lat ∧
        (w.GeocentricFromEarthFixedCoords s t).Lat ≤ π) ∧
      (-3 * π ≤ Gnco.asinlong (s 1) (s 0) - w.Rotation * t + w.celestialLong →
        Gnco.asinlong (s 1) (s 0) - w.Rotation * t + w.celestialLong ≤ 3 * π →
        -π ≤ (w.GeocentricFromEarthFixedCoords s t).Long ∧
          (w.GeocentricFromEarthFixedCoords s t).Long ≤ π)) := by
  refine ⟨Gnco.clampLongLat_mem, ?_, ?_⟩
  · intro w longDeg latDeg elev g hg
    unfold Gnco.World.GeocentricFromDegrees at hg
    split_ifs at hg with helev
    have hg' := Option.some.inj hg
    constructor
    · intro h1 h2
      rw [← hg']
      exact Gnco.clampLongLat_mem _ h1 h2
    · intro h1 h2
      rw [← hg']
      exact Gnco.clampLongLat_mem _ h1 h2
  · intro w s t
    constructor
    · have h1 := Real.neg_pi_div_two_le_arcsin (s 2 / Gnco.norm3 s)
      have h2 := Real.arcsin_le_pi_div_two (s 2 / Gnco.norm3 s)
      have hpi := Real.pi_pos
      unfold Gnco.World.GeocentricFromEarthFixedCoords
      constructor <;> simp <;> linarith
    · intro h1 h2
      unfold Gnco.World.GeocentricFromEarthFixedCoords
      exact Gnco.clampLongLat_mem _ h1 h2

/-- Witness for C4: the clamp keeps 0 in range and the re-derivation from
(1,0,0) at epoch 0 has in-range unnormalized longitude, so the derived
longitude lies in [-pi, pi]. -/
theorem c4_long_lat_range_witness :
    (-3 * π ≤ (0 : ℝ) ∧ (0 : ℝ) ≤ 3 * π ∧
      (-π ≤ Gnco.clampLongLat 0 ∧ Gnco.clampLongLat 0 ≤ π)) ∧
    (-3 * π ≤ Gnco.asinlong ((Gnco.vec3 1 0 0) 1) ((Gnco.vec3 1 0 0) 0) -
        Gnco.w1.Rotation * 0 + Gnco.w1.celestialLong ∧
      Gnco.asinlong ((Gnco.vec3 1 0 0) 1) ((Gnco.vec3 1 0 0) 0) -
        Gnco.w1.Rotation * 0 + Gnco.w1.celestialLong ≤ 3 * π ∧
      (-π ≤ (Gnco.w1.GeocentricFromEarthFixedCoords (Gnco.vec3 1 0 0) 0).Long ∧
        (Gnco.w1.GeocentricFromEarthFixedCoords (Gnco.vec3 1 0 0) 0).Long ≤ π)) := by
  have hpi := Real.pi_pos
  have hasin : Gnco.asinlong ((Gnco.vec3 1 0 0) 1) ((Gnco.vec3 1 0 0) 0) = 0 := by
    have h10 : (Gnco.vec3 1 0 0) 1 = 0 := by simp [Gnco.vec3]
    have h00 : (Gnco.vec3 1 0 0) 0 = 1 := by simp [Gnco.vec3]
    rw [h10, h00]
    unfold Gnco.asinlong
    norm_num
  have hval : Gnco.asinlong ((Gnco.vec3 1 0 0) 1) ((Gnco.vec3 1 0 0) 0) -
      Gnco.w1.Rotation * 0 + Gnco.w1.celestialLong = 0 := by
    rw [hasin]; simp [Gnco.w1]
  have ha : -3 * π ≤ Gnco.asinlong ((Gnco.vec3 1 0 0) 1) ((Gnco.vec3 1 0 0) 0) -
      Gnco.w1.Rotation * 0 + Gnco.w1.celestialLong := by rw [hval]; linarith
  have hb : Gnco.asinlong ((Gnco.vec3 1 0 0) 1) ((Gnco.vec3 1 0 0) 0) -
      Gnco.w1.Rotation * 0 + Gnco.w1.celestialLong ≤ 3 * π := by rw [hval]; linarith
  refine ⟨⟨by linarith, by linarith, c4_long_lat_range.1 0 (by linarith) (by linarith)⟩,
    ha, hb, (c4_long_lat_range.2.2 Gnco.w1 (Gnco.vec3 1 0 0) 0).2 ha hb⟩

namespace Gnco

/-- Helper: hypot of a point c*(cos, sin) on the circle of radius c > 0 is c. -/
theorem hypot_circle (c ψ : ℝ) (hc : 0 < c) :
    hypot (c * Real.cos ψ) (c * Real.sin ψ) = c := by
  unfold hypot
  have hsq : c * Real.cos ψ * (c * Real.cos ψ) + c * Real.sin ψ * (c * Real.sin ψ) = c ^ 2 := by
    have := Real.sin_sq_add_cos_sq ψ
    nlinarith
  rw [hsq, Real.sqrt_sq hc.le]

/-- Helper: the quadrant-aware asinlong applied to the point with angle phi
on a circle of positive radius recovers phi reduced into one turn. -/
theorem asinlong_sin_cos (c φ : ℝ) (hc : 0 < c) :
    asinlong (c * Real.sin φ) (c * Real.cos φ) = φ - 2 * π * ⌊φ / (2 * π)⌋ := by
  have hpi := Real.pi_pos
  have h2pi : (0 : ℝ) < 2 * π := by linarith
  set k : ℤ := ⌊φ / (2 * π)⌋ with hk
  set ψ : ℝ := φ - 2 * π * k with hψdef
  have hψ0 : 0 ≤ ψ := by
    have h1 : (k : ℝ) ≤ φ / (2 * π) := Int.floor_le _
    have h2 : (k : ℝ) * (2 * π) ≤ φ := (le_div_iff₀ h2pi).mp h1
    rw [hψdef]; linarith
  have hψlt : ψ < 2 * π := by
    have h1 : φ / (2 * π) < k + 1 := Int.lt_floor_add_one _
    have h2 : φ < ((k : ℝ) + 1) * (2 * π) := (div_lt_iff₀ h2pi).mp h1
    rw [hψdef]; linarith
  have hφeq : φ = ψ + k * (2 * π) := by rw [hψdef]; ring
  have hsin : Real.sin φ = Real.sin ψ := by
    rw [hφeq, Real.sin_add_int_mul_two_pi]
  have hcos : Real.cos φ = Real.cos ψ := by
    rw [hφeq, Real.cos_add_int_mul_two_pi]
  have hgoal : asinlong (c * Real.sin ψ) (c * Real.cos ψ) = ψ := by
    have hhyp : hypot (c * Real.cos ψ) (c * Real.sin ψ) = c := hypot_circle c ψ hc
    have harg : c * Real.sin ψ / hypot (c * Real.cos ψ) (c * Real.sin ψ) = Real.sin ψ := by
      rw [hhyp]; field_simp
    by_cases hA : ψ ≤ π / 2
    · -- first quadrant: sin and cos both nonnegative
      have hsin0 : 0 ≤ Real.sin ψ := Real.sin_nonneg_of_nonneg_of_le_pi hψ0 (by linarith)
      have hcos0 : 0 ≤ Real.cos ψ := Real.cos_nonneg_of_mem_Icc ⟨by linarith, hA⟩
      have hx : ¬c * Real.cos ψ < 0 := not_lt.mpr (by positivity)
      have hy : ¬c * Real.sin ψ < 0 := not_lt.mpr (by positivity)
      unfold asinlong
      rw [if_neg (by tauto), if_neg (by tauto), if_neg (by tauto), harg]
      exact Real.arcsin_sin (by linarith) hA
    · by_cases hB : ψ ≤ π
      · -- second quadrant: cos negative, sin nonnegative
        push_neg at hA
        have hsin0 : 0 ≤ Real.sin ψ := Real.sin_nonneg_of_nonneg_of_le_pi hψ0 hB
        have hcosneg : Real.cos ψ < 0 :=
          Real.cos_neg_of_pi_div_two_lt_of_lt hA (by linarith)
        have hx : c * Real.cos ψ < 0 := mul_neg_of_pos_of_neg hc hcosneg
        have hy : 0 ≤ c * Real.sin ψ := by positivity
        unfold asinlong
        rw [if_pos ⟨hx, hy⟩, harg]
        have : Real.arcsin (Real.sin ψ) = π - ψ := by
          rw [← Real.sin_pi_sub]
          exact Real.arcsin_sin (by linarith) (by linarith)
        rw [this]; ring
      · by_cases hC : ψ < 3 * (π / 2)
        · -- third quadrant: cos negative, sin negative
          push_neg at hA hB
          have hcosneg : Real.cos ψ < 0 :=
            Real.cos_neg_of_pi_div_two_lt_of_lt (by linarith) (by linarith)
          have hsinneg : Real.sin ψ < 0 := by
            have h1 : 0 < Real.sin (ψ - π) := by
              apply Real.sin_pos_of_pos_of_lt_pi <;> linarith
            rw [Real.sin_sub_pi] at h1
            linarith
          have hx : c * Real.cos ψ < 0 := mul_neg_of_pos_of_neg hc hcosneg
          have hy : c * Real.sin ψ < 0 := mul_neg_of_pos_of_neg hc hsinneg
          unfold asinlong
          rw [if_neg (by rintro ⟨-, h⟩; linarith), if_pos ⟨hx, hy⟩, harg]
          have : Real.arcsin (Real.sin ψ) = π - ψ := by
            rw [← Real.sin_pi_sub]
            exact Real.arcsin_sin (by linarith) (by linarith)
          rw [this]; ring
        · -- fourth quadrant: cos nonnegative, sin negative
          push_neg at hA hB hC
          have hcos0 : 0 ≤ Real.cos ψ := by
            have h1 : 0 ≤ Real.cos (ψ - 2 * π) :=
              Real.cos_nonneg_of_mem_Icc ⟨by linarith, by linarith⟩
            rw [Real.cos_sub_two_pi] at h1
            exact h1
          have hsinneg : Real.sin ψ < 0 := by
            have h1 : Real.sin (ψ - 2 * π) < 0 :=
              Real.sin_neg_of_neg_of_neg_pi_lt (by linarith) (by linarith)
            rw [Real.sin_sub_two_pi] at h1
            exact h1
          have hx : 0 ≤ c * Real.cos ψ := by positivity
          have hy : c * Real.sin ψ < 0 := mul_neg_of_pos_of_neg hc hsinneg
          unfold asinlong
          rw [if_neg (by rintro ⟨h, -⟩; linarith), if_neg (by rintro ⟨h, -⟩; linarith),
            if_pos ⟨hx, hy⟩, harg]
          have : Real.arcsin (Real.sin ψ) = ψ - 2 * π := by
            rw [← Real.sin_sub_two_pi]
            exact Real.arcsin_sin (by linarith) (by linarith)
          rw [this]; ring
  rw [hsin, hcos, hgoal]

end Gnco

namespace Gnco

/-- The coordinate state used to refute the unrestricted round-trip claim:
longitude exactly -pi on the world w1 (celestial longitude zero). -/
def g10 : GeocentricCoords := { Long := -π, Lat := 0, Elev := 0, w := w1 }

end Gnco

/-- C10 counterexample: the state g10 satisfies every hypothesis of the
claim (latitude 0 strictly inside (-pi/2, pi/2), elevation 0 above the
negated radius, unnormalized recovered longitude pi within one turn of
the range), yet the round trip at epoch 0 returns longitude pi instead of
the original -pi, so the round trip does not recover the longitude. -/
theorem c10_roundtrip_counterexample :
    (Gnco.w1.GeocentricFromEarthFixedCoords (Gnco.g10.EarthFixedCoords 0) 0).Long = π ∧
      Gnco.g10.Long = -π ∧
      (Gnco.w1.GeocentricFromEarthFixedCoords (Gnco.g10.EarthFixedCoords 0) 0).Long ≠
        Gnco.g10.Long := by
  have hpi := Real.pi_pos
  have hvec : Gnco.g10.EarthFixedCoords 0 = Gnco.vec3 (-1) 0 0 := by
    funext i
    fin_cases i <;>
      simp [Gnco.GeocentricCoords.EarthFixedCoords, Gnco.g10, Gnco.w1, Gnco.scale3, Gnco.vec3]
  have hasin : Gnco.asinlong ((Gnco.vec3 (-1) 0 0) 1) ((Gnco.vec3 (-1) 0 0) 0) = π := by
    have h1 : (Gnco.vec3 (-1) 0 0) 1 = 0 := by simp [Gnco.vec3]
    have h0 : (Gnco.vec3 (-1) 0 0) 0 = -1 := by simp [Gnco.vec3]
    rw [h1, h0]
    unfold Gnco.asinlong
    rw [if_pos (by norm_num)]
    simp [Gnco.hypot]
  have hlong : (Gnco.w1.GeocentricFromEarthFixedCoords (Gnco.g10.EarthFixedCoords 0) 0).Long =
      Gnco.clampLongLat (π - Gnco.w1.Rotation * 0 + Gnco.w1.celestialLong) := by
    rw [hvec]
    unfold Gnco.World.GeocentricFromEarthFixedCoords
    rw [hasin]
  have harg : π - Gnco.w1.Rotation * 0 + Gnco.w1.celestialLong = π := by
    simp [Gnco.w1]
  have hclamp : Gnco.clampLongLat π = π := by
    unfold Gnco.clampLongLat
    rw [if_neg (by linarith), if_neg (by linarith)]
  have hres : (Gnco.w1.GeocentricFromEarthFixedCoords (Gnco.g10.EarthFixedCoords 0) 0).Long = π := by
    rw [hlong, harg, hclamp]
  refine ⟨hres, rfl, ?_⟩
  rw [hres]
  show π ≠ Gnco.g10.Long
  have : Gnco.g10.Long = -π := rfl
  rw [this]
  intro h
  linarith


/-- C10 amended: with celestial longitude zero, converting a geocentric
state to an earth-fixed vector at epoch t and re-deriving geocentric
coordinates at the same epoch recovers latitude, longitude and elevation
exactly, for latitude strictly inside (-pi/2, pi/2), elevation above the
negated radius, unnormalized recovered longitude within one full turn of
[-pi, pi], and - beyond the original claim - longitude strictly inside
(-pi, pi) (the claim as stated fails at longitude -pi). -/
theorem c10_roundtrip (w : Gnco.World) (Long Lat Elev t : ℝ)
    (hcel : w.celestialLong = 0)
    (hlat1 : -(π / 2) < Lat) (hlat2 : Lat < π / 2)
    (helev : -w.Radius < Elev)
    (hlong1 : -π < Long) (hlong2 : Long < π)
    (hu1 : -3 * π ≤
      Gnco.asinlong (((⟨Long, Lat, Elev, w⟩ : Gnco.GeocentricCoords).EarthFixedCoords t) 1)
          (((⟨Long, Lat, Elev, w⟩ : Gnco.GeocentricCoords).EarthFixedCoords t) 0) -
        w.Rotation * t + w.celestialLong)
    (hu2 : Gnco.asinlong (((⟨Long, Lat, Elev, w⟩ : Gnco.GeocentricCoords).EarthFixedCoords t) 1)
          (((⟨Long, Lat, Elev, w⟩ : Gnco.GeocentricCoords).EarthFixedCoords t) 0) -
        w.Rotation * t + w.celestialLong ≤ 3 * π) :
    w.GeocentricFromEarthFixedCoords
        ((⟨Long, Lat, Elev, w⟩ : Gnco.GeocentricCoords).EarthFixedCoords t) t =
      ⟨Long, Lat, Elev, w⟩ := by
  have hpi := Real.pi_pos
  have hrpos : (0 : ℝ) < Elev + w.Radius := by linarith
  have hclat : 0 < Real.cos Lat := Real.cos_pos_of_mem_Ioo ⟨hlat1, hlat2⟩
  have hEF : (⟨Long, Lat, Elev, w⟩ : Gnco.GeocentricCoords).EarthFixedCoords t =
      Gnco.scale3 (Elev + w.Radius)
        (Gnco.vec3 (Real.cos Lat * Real.cos (Long + w.Rotation * t))
          (Real.cos Lat * Real.sin (Long + w.Rotation * t)) (Real.sin Lat)) := rfl
  have hv0 : ((⟨Long, Lat, Elev, w⟩ : Gnco.GeocentricCoords).EarthFixedCoords t) 0 =
      (Elev + w.Radius) * Real.cos Lat * Real.cos (Long + w.Rotation * t) := by
    rw [hEF]; simp [Gnco.scale3, Gnco.vec3]; ring
  have hv1 : ((⟨Long, Lat, Elev, w⟩ : Gnco.GeocentricCoords).EarthFixedCoords t) 1 =
      (Elev + w.Radius) * Real.cos Lat * Real.sin (Long + w.Rotation * t) := by
    rw [hEF]; simp [Gnco.scale3, Gnco.vec3]; ring
  have hv2 : ((⟨Long, Lat, Elev, w⟩ : Gnco.GeocentricCoords).EarthFixedCoords t) 2 =
      (Elev + w.Radius) * Real.sin Lat := by
    rw [hEF]; simp [Gnco.scale3, Gnco.vec3]
  have hnorm : Gnco.norm3 ((⟨Long, Lat, Elev, w⟩ : Gnco.GeocentricCoords).EarthFixedCoords t) =
      Elev + w.Radius := by
    unfold Gnco.norm3
    rw [hv0, hv1, hv2]
    have hs1 := Real.sin_sq_add_cos_sq Lat
    have hs2 := Real.sin_sq_add_cos_sq (Long + w.Rotation * t)
    have hsq : (Elev + w.Radius) * Real.cos Lat * Real.cos (Long + w.Rotation * t) *
          ((Elev + w.Radius) * Real.cos Lat * Real.cos (Long + w.Rotation * t)) +
        (Elev + w.Radius) * Real.cos Lat * Real.sin (Long + w.Rotation * t) *
          ((Elev + w.Radius) * Real.cos Lat * Real.sin (Long + w.Rotation * t)) +
        (Elev + w.Radius) * Real.sin Lat * ((Elev + w.Radius) * Real.sin Lat) =
        (Elev + w.Radius) ^ 2 := by
      linear_combination ((Elev + w.Radius) ^ 2 * Real.cos Lat ^ 2) * hs2 +
        (Elev + w.Radius) ^ 2 * hs1
    rw [hsq, Real.sqrt_sq hrpos.le]
  have hasin : Gnco.asinlong (((⟨Long, Lat, Elev, w⟩ : Gnco.GeocentricCoords).EarthFixedCoords t) 1)
      (((⟨Long, Lat, Elev, w⟩ : Gnco.GeocentricCoords).EarthFixedCoords t) 0) =
      (Long + w.Rotation * t) -
        2 * π * ⌊(Long + w.Rotation * t) / (2 * π)⌋ := by
    rw [hv0, hv1]
    have h1 : (Elev + w.Radius) * Real.cos Lat * Real.sin (Long + w.Rotation * t) =
        ((Elev + w.Radius) * Real.cos Lat) * Real.sin (Long + w.Rotation * t) := by ring
    have h2 : (Elev + w.Radius) * Real.cos Lat * Real.cos (Long + w.Rotation * t) =
        ((Elev + w.Radius) * Real.cos Lat) * Real.cos (Long + w.Rotation * t) := by ring
    rw [h1, h2]
    exact Gnco.asinlong_sin_cos ((Elev + w.Radius) * Real.cos Lat) (Long + w.Rotation * t)
      (by positivity)
  have hu : Gnco.asinlong (((⟨Long, Lat, Elev, w⟩ : Gnco.GeocentricCoords).EarthFixedCoords t) 1)
      (((⟨Long, Lat, Elev, w⟩ : Gnco.GeocentricCoords).EarthFixedCoords t) 0) -
      w.Rotation * t + w.celestialLong =
      Long - 2 * π * ⌊(Long + w.Rotation * t) / (2 * π)⌋ := by
    rw [hasin, hcel]
    ring
  rw [hu] at hu1 hu2
  have hk1 : ⌊(Long + w.Rotation * t) / (2 * π)⌋ ≤ 1 := by
    by_contra h
    push_neg at h
    have h2 : (2 : ℝ) ≤ (⌊(Long + w.Rotation * t) / (2 * π)⌋ : ℝ) := by exact_mod_cast h
    nlinarith
  have hk2 : -1 ≤ ⌊(Long + w.Rotation * t) / (2 * π)⌋ := by
    by_contra h
    push_neg at h
    have h2 : (⌊(Long + w.Rotation * t) / (2 * π)⌋ : ℝ) ≤ -2 := by
      have : ⌊(Long + w.Rotation * t) / (2 * π)⌋ ≤ -2 := by omega
      exact_mod_cast this
    nlinarith
  have hlongeq : Gnco.clampLongLat
      (Long - 2 * π * ⌊(Long + w.Rotation * t) / (2 * π)⌋) = Long := by
    interval_cases h : ⌊(Long + w.Rotation * t) / (2 * π)⌋
    · unfold Gnco.clampLongLat
      push_cast
      rw [if_neg (by intro hcon; nlinarith), if_pos (by nlinarith)]
      ring
    · unfold Gnco.clampLongLat
      push_cast
      rw [if_neg (by intro hcon; nlinarith), if_neg (by intro hcon; nlinarith)]
      ring
    · unfold Gnco.clampLongLat
      push_cast
      rw [if_pos (by nlinarith)]
      ring
  have hlat : Real.arcsin ((Elev + w.Radius) * Real.sin Lat / (Elev + w.Radius)) = Lat := by
    rw [mul_comm, mul_div_assoc, div_self (ne_of_gt hrpos), mul_one]
    exact Real.arcsin_sin hlat1.le hlat2.le
  unfold Gnco.World.GeocentricFromEarthFixedCoords
  simp only [hnorm, hv2]
  rw [hu, hlongeq, hlat]
  have helv : Elev + w.Radius - w.Radius = Elev := by ring
  rw [helv]

/-- Witness for C10: the concrete round trip on w1 with longitude pi/2,
latitude 0, elevation 0 at epoch 0 recovers the original state. -/
theorem c10_roundtrip_witness :
    Gnco.w1.celestialLong = 0 ∧
      Gnco.w1.GeocentricFromEarthFixedCoords
          ((⟨π / 2, 0, 0, Gnco.w1⟩ : Gnco.GeocentricCoords).EarthFixedCoords 0) 0 =
        ⟨π / 2, 0, 0, Gnco.w1⟩ := by
  have hpi := Real.pi_pos
  have hcel : Gnco.w1.celestialLong = 0 := rfl
  have hvec : (⟨π / 2, 0, 0, Gnco.w1⟩ : Gnco.GeocentricCoords).EarthFixedCoords 0 =
      Gnco.vec3 0 1 0 := by
    funext i
    fin_cases i <;>
      simp [Gnco.GeocentricCoords.EarthFixedCoords, Gnco.w1, Gnco.scale3, Gnco.vec3]
  have hasin : Gnco.asinlong ((Gnco.vec3 0 1 0) 1) ((Gnco.vec3 0 1 0) 0) = π / 2 := by
    have h1 : (Gnco.vec3 0 1 0) 1 = 1 := by simp [Gnco.vec3]
    have h0 : (Gnco.vec3 0 1 0) 0 = 0 := by simp [Gnco.vec3]
    rw [h1, h0]
    unfold Gnco.asinlong
    rw [if_neg (by norm_num), if_neg (by norm_num), if_neg (by norm_num)]
    have hh : Gnco.hypot 0 1 = 1 := by
      unfold Gnco.hypot; norm_num
    rw [hh, div_one, Real.arcsin_one]
  have huval : Gnco.asinlong
      (((⟨π / 2, 0, 0, Gnco.w1⟩ : Gnco.GeocentricCoords).EarthFixedCoords 0) 1)
      (((⟨π / 2, 0, 0, Gnco.w1⟩ : Gnco.GeocentricCoords).EarthFixedCoords 0) 0) -
      Gnco.w1.Rotation * 0 + Gnco.w1.celestialLong = π / 2 := by
    rw [hvec, hasin, hcel]
    ring
  refine ⟨hcel, c10_roundtrip Gnco.w1 (π / 2) 0 0 0 hcel (by linarith) (by linarith)
    ?_ (by linarith) (by linarith) ?_ ?_⟩
  · show -Gnco.w1.Radius < (0 : ℝ)
    norm_num [Gnco.w1]
  · rw [huval]; linarith
  · rw [huval]; linarith

namespace Orbits

/-- Elliptical: apoapsis and periapsis radius of an orbit; setting the
periapsis radius rp to 0 encodes a circular orbit. -/
structure Elliptical where
  ra : ℝ
  rp : ℝ

/-- Elliptical.Apoapsis: the maximum distance from the center. -/
def Elliptical.Apoapsis (o : Elliptical) : ℝ := o.ra

/-- Elliptical.Periapsis: the minimum distance from the center, with the
circular zero-encoding resolved to the apoapsis. -/
def Elliptical.Periapsis (o : Elliptical) : ℝ :=
  if o.rp = 0 then o.ra else o.rp

/-- Elliptical.IsCircular within a tolerance. -/
def Elliptical.IsCircular (o : Elliptical) (tol : ℝ) : Prop :=
  o.rp = 0 ∨ o.ra - o.rp < tol

/-- Ellipse semimajor axis length, a = (Ra + Rp)/2. -/
def Elliptical.a (o : Elliptical) : ℝ := 0.5 * (o.Apoapsis + o.Periapsis)

/-- Ellipse distance between focus and center, c = a - Periapsis. -/
def Elliptical.c (o : Elliptical) : ℝ := o.a - o.Periapsis

/-- Elliptical.Eccentricity, e = c/a. -/
def Elliptical.Eccentricity (o : Elliptical) : ℝ := o.c / o.a

/-- NewElliptical with validation. The Go code computes e := o.Eccentricity()
in float64 and rejects when e >= 1 or e < 0; when a() is zero, Go's c/0 is
plus or minus infinity (tripping those checks whenever c is nonzero) while
0/0 is NaN (tripping neither), so the zero-denominator branch is modelled
explicitly, since real-number division by zero would yield 0 instead. -/
def NewElliptical (ra rp : ℝ) : Option Elliptical :=
  if ra < rp ∨ ra < 0 then none
  else
    let o : Elliptical := ⟨ra, if ra = rp then 0 else rp⟩
    if (if o.a = 0 then o.c ≠ 0 else (1 ≤ o.Eccentricity ∨ o.Eccentricity < 0)) then none
    else some o

/-- NewCircular delegates to NewElliptical with equal radii. -/
def NewCircular (r : ℝ) : Option Elliptical := NewElliptical r r

/-- Elliptical.MeanAnomaly: identity when circular, else
Atan2(-q, -e-cos) + pi - e*q/(1+e*cos) with q = sqrt(1-e^2)*sin. The Go
code negates q before the Atan2 call; when q is zero that negation yields
IEEE negative zero, so the call is modelled with atan2neg, which takes q
un-negated and reproduces Go's documented Atan2 special cases for -0. -/
def Elliptical.MeanAnomaly (o : Elliptical) (trueAnomaly : ℝ) : ℝ :=
  if o.IsCircular 0 then trueAnomaly
  else
    let e := o.Eccentricity
    let sint := Real.sin trueAnomaly
    let cost := Real.cos trueAnomaly
    let sqrt1esin := Real.sqrt (1 - e * e) * sint
    Gnco.atan2neg sqrt1esin (-e - cost) + π - e * sqrt1esin / (1 + e * cost)

/-- Elliptical.AngularMomentum: the Go code takes sqrt(gravParam * o.rp *
(1 + e)) on the raw stored rp field (not the resolved Periapsis). -/
def Elliptical.AngularMomentum (o : Elliptical) (gravParam : ℝ) : ℝ :=
  Real.sqrt (gravParam * o.rp * (1 + o.Eccentricity))

/-- Elliptical.Velocity: radial and tangential velocity components. -/
def Elliptical.Velocity (o : Elliptical) (gravParam trueAnomaly : ℝ) : ℝ × ℝ :=
  let gdivh := gravParam / o.AngularMomentum gravParam
  let e := o.Eccentricity
  (gdivh * e * Real.sin trueAnomaly, gdivh * (1 + e * Real.cos trueAnomaly))

/-- Elliptical.Period of the orbit. -/
def Elliptical.Period (o : Elliptical) (gravParam : ℝ) : ℝ :=
  if o.IsCircular 0 then
    2 * π * o.ra /
      Gnco.hypot (o.Velocity gravParam 0).1 (o.Velocity gravParam 0).2
  else
    2 * π * Real.sqrt (o.a * o.a * o.a / gravParam)

/-- Elliptical.TrueAnomalyFromElapsedSincePeriapsis. The Newton-Raphson
root finder comes from the external md1 geometry library and is modelled
abstractly: solver tol guess f returns the root estimate together with the
iteration count at convergence, negative when the iteration budget was
exhausted without converging; the Go code then returns NaN, modelled as
none. -/
def Elliptical.TrueAnomalyFromElapsedSincePeriapsis (o : Elliptical)
    (solver : ℝ → ℝ → (ℝ → ℝ) → ℝ × ℤ)
    (gravParam elapsedSincePeriapsis tol : ℝ) : Option ℝ :=
  let T := o.Period gravParam
  let Me := 2 * π * elapsedSincePeriapsis / T
  let e := o.Eccentricity
  let res := solver tol (Me - e / 2) fun xGuess => xGuess - e * Real.sin xGuess - Me
  if res.2 < 0 then none
  else
    let rhs := Real.sqrt ((1 + e) / (1 - e)) * Real.tan (res.1 / 2)
    some |2 * Real.arctan rhs|

end Orbits

/-- C3: for the circular orbit built by NewElliptical(1,1) (stored as
ra = 1, rp = 0) the code's AngularMomentum(1) is sqrt(1*0*(1+e)) = 0,
because it reads the raw rp field rather than Periapsis(); the claim
(and the spec, whose circular-period property needs a nonzero h) requires
sqrt(mu * Periapsis) = sqrt(1*1) = 1, which differs from 0. -/
theorem c3_angular_momentum_circular_zero :
    Orbits.NewElliptical 1 1 = some ⟨1, 0⟩ ∧
      Orbits.Elliptical.AngularMomentum ⟨1, 0⟩ 1 = 0 ∧
      Real.sqrt (1 * Orbits.Elliptical.Periapsis ⟨1, 0⟩) = 1 ∧
      (0 : ℝ) ≠ 1 := by
  have hperi : Orbits.Elliptical.Periapsis ⟨1, 0⟩ = 1 := by
    unfold Orbits.Elliptical.Periapsis
    norm_num
  have hsome : Orbits.NewElliptical 1 1 = some ⟨1, 0⟩ := by
    unfold Orbits.NewElliptical
    rw [if_neg (by norm_num)]
    norm_num [Orbits.Elliptical.a, Orbits.Elliptical.c, Orbits.Elliptical.Eccentricity,
      Orbits.Elliptical.Periapsis, Orbits.Elliptical.Apoapsis]
  refine ⟨hsome, ?_, ?_, by norm_num⟩
  · unfold Orbits.Elliptical.AngularMomentum
    norm_num
  · rw [hperi]
    norm_num

namespace Orbits

/-- Helper: NewElliptical rejects apoapsis below periapsis and negative
periapsis (the latter through the eccentricity checks). -/
theorem newElliptical_none (ra rp : ℝ) (h : ra < rp ∨ rp < 0) :
    NewElliptical ra rp = none := by
  unfold NewElliptical
  by_cases h1 : ra < rp ∨ ra < 0
  · rw [if_pos h1]
  · push_neg at h1
    obtain ⟨hle, hra0⟩ := h1
    rw [if_neg (by push_neg; exact ⟨hle, hra0⟩)]
    have hrp : rp < 0 := by
      rcases h with h | h
      · linarith
      · exact h
    have hne : ¬ra = rp := by intro hcon; rw [hcon] at hra0; linarith
    simp only [if_neg hne]
    have hP : (⟨ra, rp⟩ : Elliptical).Periapsis = rp := by
      unfold Elliptical.Periapsis
      simp only
      rw [if_neg (by intro hcon; rw [hcon] at hrp; linarith)]
    have ha : (⟨ra, rp⟩ : Elliptical).a = 0.5 * (ra + rp) := by
      unfold Elliptical.a Elliptical.Apoapsis
      rw [hP]
    have hc : (⟨ra, rp⟩ : Elliptical).c = 0.5 * (ra - rp) := by
      unfold Elliptical.c
      rw [ha, hP]
      ring
    have hcpos : 0 < (⟨ra, rp⟩ : Elliptical).c := by rw [hc]; linarith
    rw [if_pos]
    rcases lt_trichotomy ((⟨ra, rp⟩ : Elliptical).a) 0 with hlt | heq | hgt
    · rw [if_neg (ne_of_lt hlt)]
      right
      exact div_neg_of_pos_of_neg hcpos hlt
    · rw [if_pos heq]
      exact ne_of_gt hcpos
    · rw [if_neg (ne_of_gt hgt)]
      left
      have hca : (⟨ra, rp⟩ : Elliptical).a < (⟨ra, rp⟩ : Elliptical).c := by
        rw [ha, hc]; linarith
      exact le_of_lt ((one_lt_div hgt).mpr hca)

/-- Helper: NewElliptical succeeds on valid geometry, re-encoding the
circular case with a zero periapsis field. -/
theorem newElliptical_some (ra rp : ℝ) (hle : rp ≤ ra) (h0 : 0 ≤ rp) :
    NewElliptical ra rp = some ⟨ra, if ra = rp then 0 else rp⟩ := by
  unfold NewElliptical
  rw [if_neg (by push_neg; exact ⟨hle, by linarith⟩)]
  by_cases heq : ra = rp
  · simp only [if_pos heq]
    have hP : (⟨ra, 0⟩ : Elliptical).Periapsis = ra := by
      unfold Elliptical.Periapsis
      simp
    have ha : (⟨ra, 0⟩ : Elliptical).a = ra := by
      unfold Elliptical.a Elliptical.Apoapsis
      rw [hP]; ring
    have hc : (⟨ra, 0⟩ : Elliptical).c = 0 := by
      unfold Elliptical.c
      rw [ha, hP]; ring
    by_cases hra : ra = 0
    · rw [if_neg]
      rw [if_pos (by rw [ha]; exact hra)]
      rw [hc]
      simp
    · rw [if_neg]
      rw [if_neg (by rw [ha]; exact hra)]
      unfold Elliptical.Eccentricity
      rw [hc]
      simp
  · simp only [if_neg heq]
    have hlt : rp < ra := lt_of_le_of_ne hle (by intro hcon; exact heq hcon.symm)
    by_cases hrp0 : rp = 0
    · subst hrp0
      have hP : (⟨ra, 0⟩ : Elliptical).Periapsis = ra := by
        unfold Elliptical.Periapsis
        simp
      have ha : (⟨ra, 0⟩ : Elliptical).a = ra := by
        unfold Elliptical.a Elliptical.Apoapsis
        rw [hP]; ring
      have hc : (⟨ra, 0⟩ : Elliptical).c = 0 := by
        unfold Elliptical.c
        rw [ha, hP]; ring
      rw [if_neg]
      rw [if_neg (by rw [ha]; intro hcon; rw [hcon] at hlt; linarith)]
      unfold Elliptical.Eccentricity
      rw [hc]
      simp
    · have hrppos : 0 < rp := lt_of_le_of_ne h0 (by intro hcon; exact hrp0 hcon.symm)
      have hP : (⟨ra, rp⟩ : Elliptical).Periapsis = rp := by
        unfold Elliptical.Periapsis
        simp only
        rw [if_neg hrp0]
      have ha : (⟨ra, rp⟩ : Elliptical).a = 0.5 * (ra + rp) := by
        unfold Elliptical.a Elliptical.Apoapsis
        rw [hP]
      have hc : (⟨ra, rp⟩ : Elliptical).c = 0.5 * (ra - rp) := by
        unfold Elliptical.c
        rw [ha, hP]; ring
      have hapos : 0 < (⟨ra, rp⟩ : Elliptical).a := by rw [ha]; linarith
      rw [if_neg]
      rw [if_neg (ne_of_gt hapos)]
      unfold Elliptical.Eccentricity
      push_neg
      constructor
      · apply lt_of_lt_of_le _ (le_refl 1)
        rw [div_lt_one hapos, ha, hc]
        linarith
      · apply div_nonneg _ hapos.le
        rw [hc]
        linarith

/-- Helper: the shape of a successfully constructed orbit. -/
theorem newElliptical_some_shape (ra rp : ℝ) (o : Elliptical)
    (h : NewElliptical ra rp = some o) :
    rp ≤ ra ∧ 0 ≤ rp ∧ o = ⟨ra, if ra = rp then 0 else rp⟩ := by
  by_cases hv : rp ≤ ra ∧ 0 ≤ rp
  · obtain ⟨h1, h2⟩ := hv
    rw [newElliptical_some ra rp h1 h2] at h
    exact ⟨h1, h2, (Option.some.inj h).symm⟩
  · have hcase : ra < rp ∨ rp < 0 := by
      push_neg at hv
      rcases lt_or_le ra rp with hh | hh
      · exact Or.inl hh
      · exact Or.inr (hv hh)
    rw [newElliptical_none ra rp hcase] at h
    exact absurd h (by simp)

/-- C8 counterexample: NewElliptical(1, -3) returns an error although none
of the claim's error conditions holds there: 1 >= -3, 1 >= 0, and the
derived eccentricity is -2, below 1 (the code's e < 0 check fires). -/
theorem c8_error_beyond_claim_counterexample :
    NewElliptical 1 (-3) = none ∧ ¬((1 : ℝ) < -3) ∧ ¬((1 : ℝ) < 0) ∧
      Elliptical.Eccentricity ⟨1, -3⟩ < 1 := by
  refine ⟨newElliptical_none 1 (-3) (Or.inr (by norm_num)), by norm_num, by norm_num, ?_⟩
  norm_num [Elliptical.Eccentricity, Elliptical.c, Elliptical.a, Elliptical.Apoapsis,
    Elliptical.Periapsis]

/-- Helper: invariants of every successfully constructed orbit. -/
theorem newElliptical_inv (ra rp : ℝ) (o : Elliptical) (h : NewElliptical ra rp = some o) :
    o.Periapsis ≤ o.Apoapsis ∧ 0 ≤ o.Periapsis ∧
      (o.a ≠ 0 → 0 ≤ o.Eccentricity ∧ o.Eccentricity < 1) ∧
      (¬o.IsCircular 0 → 0 ≤ o.Eccentricity ∧ o.Eccentricity < 1) := by
  obtain ⟨h1, h2, h3⟩ := newElliptical_some_shape ra rp o h
  have hra0 : 0 ≤ ra := le_trans h2 h1
  have ho : (if ra = rp then (0 : ℝ) else rp) = 0 ∨
      ((if ra = rp then (0 : ℝ) else rp) = rp ∧ 0 < rp ∧ rp < ra) := by
    by_cases heq : ra = rp
    · left; rw [if_pos heq]
    · rw [if_neg heq]
      by_cases hz : rp = 0
      · left; exact hz
      · right
        exact ⟨rfl, lt_of_le_of_ne h2 (Ne.symm hz),
          lt_of_le_of_ne h1 fun hcon => heq hcon.symm⟩
  rcases ho with hz | ⟨hid, hrppos, hrplt⟩
  · rw [hz] at h3
    subst h3
    have hP : (⟨ra, 0⟩ : Elliptical).Periapsis = ra := by
      unfold Elliptical.Periapsis; simp
    have ha : (⟨ra, 0⟩ : Elliptical).a = ra := by
      unfold Elliptical.a Elliptical.Apoapsis; rw [hP]; ring
    have hc : (⟨ra, 0⟩ : Elliptical).c = 0 := by
      unfold Elliptical.c; rw [ha, hP]; ring
    have hecc : 0 ≤ (⟨ra, 0⟩ : Elliptical).Eccentricity ∧
        (⟨ra, 0⟩ : Elliptical).Eccentricity < 1 := by
      unfold Elliptical.Eccentricity
      rw [hc]
      norm_num
    refine ⟨by rw [hP]; exact le_refl ra, by rw [hP]; exact hra0, fun _ => hecc, fun hnc => ?_⟩
    exact absurd (Or.inl rfl) hnc
  · rw [hid] at h3
    subst h3
    have hP : (⟨ra, rp⟩ : Elliptical).Periapsis = rp := by
      unfold Elliptical.Periapsis
      simp only
      rw [if_neg (ne_of_gt hrppos)]
    have ha : (⟨ra, rp⟩ : Elliptical).a = 0.5 * (ra + rp) := by
      unfold Elliptical.a Elliptical.Apoapsis; rw [hP]
    have hc : (⟨ra, rp⟩ : Elliptical).c = 0.5 * (ra - rp) := by
      unfold Elliptical.c; rw [ha, hP]; ring
    have hapos : 0 < (⟨ra, rp⟩ : Elliptical).a := by rw [ha]; linarith
    have hecc : 0 ≤ (⟨ra, rp⟩ : Elliptical).Eccentricity ∧
        (⟨ra, rp⟩ : Elliptical).Eccentricity < 1 := by
      unfold Elliptical.Eccentricity
      constructor
      · apply div_nonneg _ hapos.le
        rw [hc]; linarith
      · rw [div_lt_one hapos, ha, hc]
        linarith
    exact ⟨by rw [hP]; exact h1, by rw [hP]; exact h2, fun _ => hecc, fun _ => hecc⟩

/-- C8 amended: NewElliptical returns an error exactly when apoapsis is
below periapsis, apoapsis is negative, or periapsis is negative (the last
case, missing from the claim, is caught by the code's eccentricity checks);
every successfully constructed orbit satisfies apoapsis >= periapsis >= 0
and, whenever its semi-major axis is nonzero (in Go a zero semi-major axis
would make the eccentricity NaN), derived eccentricity in [0, 1). -/
theorem c8_new_elliptical_validation (ra rp : ℝ) :
    (NewElliptical ra rp = none ↔ ra < rp ∨ ra < 0 ∨ rp < 0) ∧
    (∀ o : Elliptical, NewElliptical ra rp = some o →
      o.Periapsis ≤ o.Apoapsis ∧ 0 ≤ o.Periapsis ∧
        (o.a ≠ 0 → 0 ≤ o.Eccentricity ∧ o.Eccentricity < 1)) := by
  constructor
  · constructor
    · intro h
      by_contra hcon
      push_neg at hcon
      obtain ⟨h1, h2, h3⟩ := hcon
      rw [newElliptical_some ra rp h1 h3] at h
      exact absurd h (by simp)
    · intro h
      rcases h with h | h | h
      · exact newElliptical_none _ _ (Or.inl h)
      · rcases lt_or_le ra rp with hh | hh
        · exact newElliptical_none _ _ (Or.inl hh)
        · exact newElliptical_none _ _ (Or.inr (by linarith))
      · exact newElliptical_none _ _ (Or.inr h)
  · intro o h
    obtain ⟨i1, i2, i3, -⟩ := newElliptical_inv ra rp o h
    exact ⟨i1, i2, i3⟩

/-- Witness for C8 at the valid inputs (2, 1). -/
theorem c8_new_elliptical_validation_witness :
    NewElliptical 2 1 = some ⟨2, 1⟩ ∧
      ((⟨2, 1⟩ : Elliptical).Periapsis ≤ (⟨2, 1⟩ : Elliptical).Apoapsis ∧
        0 ≤ (⟨2, 1⟩ : Elliptical).Periapsis ∧
        ((⟨2, 1⟩ : Elliptical).a ≠ 0 →
          0 ≤ (⟨2, 1⟩ : Elliptical).Eccentricity ∧
            (⟨2, 1⟩ : Elliptical).Eccentricity < 1)) := by
  have hs : NewElliptical 2 1 = some ⟨2, 1⟩ := by
    rw [newElliptical_some 2 1 (by norm_num) (by norm_num)]
    norm_num
  exact ⟨hs, (c8_new_elliptical_validation 2 1).2 ⟨2, 1⟩ hs⟩

end Orbits

namespace Orbits

/-- Helper: the closed-form mean-anomaly expression lies strictly between
0 and 2*pi for eccentricity in [0, 1) and any point (s, c) on the unit
circle whose q = sqrt(1-e^2)*s is nonzero (the nonzero-argument branch of
the Atan2 call). -/
theorem kepler_mean_mem (e s c : ℝ) (he0 : 0 ≤ e) (he1 : e < 1)
    (hsc : s ^ 2 + c ^ 2 = 1) (hq : Real.sqrt (1 - e * e) * s ≠ 0) :
    0 < Gnco.atan2 (-(Real.sqrt (1 - e * e) * s)) (-e - c) + π -
        e * (Real.sqrt (1 - e * e) * s) / (1 + e * c) ∧
      Gnco.atan2 (-(Real.sqrt (1 - e * e) * s)) (-e - c) + π -
        e * (Real.sqrt (1 - e * e) * s) / (1 + e * c) < 2 * π := by
  have hpi := Real.pi_pos
  have hc1 : -1 ≤ c := by nlinarith [sq_nonneg s]
  have hc2 : c ≤ 1 := by nlinarith [sq_nonneg s]
  have hden : 0 < 1 + e * c := by nlinarith
  have h1e : 0 ≤ 1 - e * e := by nlinarith
  have harg1 : -π < Complex.arg ⟨-e - c, -(Real.sqrt (1 - e * e) * s)⟩ :=
    Complex.neg_pi_lt_arg _
  have harg2 : Complex.arg ⟨-e - c, -(Real.sqrt (1 - e * e) * s)⟩ ≤ π :=
    Complex.arg_le_pi _
  have hargne : Complex.arg ⟨-e - c, -(Real.sqrt (1 - e * e) * s)⟩ ≠ π := by
    intro hcon
    obtain ⟨-, him⟩ := Complex.arg_eq_pi_iff.mp hcon
    exact hq (neg_eq_zero.mp him)
  have harglt : Complex.arg ⟨-e - c, -(Real.sqrt (1 - e * e) * s)⟩ < π :=
    lt_of_le_of_ne harg2 hargne
  have hat : Gnco.atan2 (-(Real.sqrt (1 - e * e) * s)) (-e - c) =
      Complex.arg ⟨-e - c, -(Real.sqrt (1 - e * e) * s)⟩ := rfl
  have habs : Complex.abs ⟨-e - c, -(Real.sqrt (1 - e * e) * s)⟩ = 1 + e * c := by
    rw [Complex.abs_apply, Complex.normSq_mk]
    have hq2 : Real.sqrt (1 - e * e) * s * (Real.sqrt (1 - e * e) * s) =
        (1 - e * e) * (s * s) := by
      nlinarith [Real.sq_sqrt h1e]
    have hid : (-e - c) * (-e - c) +
        -(Real.sqrt (1 - e * e) * s) * -(Real.sqrt (1 - e * e) * s) = (1 + e * c) ^ 2 := by
      nlinarith [hq2, hsc]
    rw [hid, Real.sqrt_sq hden.le]
  have hsinA : Real.sin (Gnco.atan2 (-(Real.sqrt (1 - e * e) * s)) (-e - c) + π) =
      Real.sqrt (1 - e * e) * s / (1 + e * c) := by
    rw [Real.sin_add_pi, hat, Complex.sin_arg, habs]
    show -(-(Real.sqrt (1 - e * e) * s) / (1 + e * c)) = _
    ring
  set A := Gnco.atan2 (-(Real.sqrt (1 - e * e) * s)) (-e - c) + π with hAdef
  have hA1 : 0 < A := by rw [hAdef, hat]; linarith
  have hA2 : A < 2 * π := by rw [hAdef, hat]; linarith
  have hterm : e * (Real.sqrt (1 - e * e) * s) / (1 + e * c) = e * Real.sin A := by
    rw [hsinA]; ring
  rw [hterm]
  constructor
  · rcases le_or_lt (Real.sin A) 0 with hs0 | hs0
    · nlinarith [mul_nonneg he0 (neg_nonneg.mpr hs0)]
    · have hslt := Real.sin_lt hA1
      nlinarith
  · rcases le_or_lt 0 (Real.sin A) with hs0 | hs0
    · nlinarith [mul_nonneg he0 hs0]
    · have hBpos : 0 < 2 * π - A := by linarith
      have hsinB : Real.sin (2 * π - A) = -Real.sin A := Real.sin_two_pi_sub A
      have hsinBlt : Real.sin (2 * π - A) < 2 * π - A := Real.sin_lt hBpos
      nlinarith [mul_nonneg (by linarith : (0 : ℝ) ≤ 1 - e)
        (by linarith : (0 : ℝ) ≤ -Real.sin A)]

/-- Helper: the mean-anomaly expression as the Go program computes it,
with the IEEE negative zero passed to Atan2 when sin vanishes, lies in
[0, 2*pi) for eccentricity in [0, 1) and any point on the unit circle:
at sin = 0 Go's Atan2(-0, x) returns -pi (x < 0, so the value is 0) or
-0 (x >= 0, so the value is pi); elsewhere the strict bounds apply. -/
theorem kepler_mean_go_mem (e s c : ℝ) (he0 : 0 ≤ e) (he1 : e < 1)
    (hsc : s ^ 2 + c ^ 2 = 1) :
    0 ≤ Gnco.atan2neg (Real.sqrt (1 - e * e) * s) (-e - c) + π -
        e * (Real.sqrt (1 - e * e) * s) / (1 + e * c) ∧
      Gnco.atan2neg (Real.sqrt (1 - e * e) * s) (-e - c) + π -
        e * (Real.sqrt (1 - e * e) * s) / (1 + e * c) < 2 * π := by
  have hpi := Real.pi_pos
  by_cases hq : Real.sqrt (1 - e * e) * s = 0
  · have h1e : 0 < 1 - e * e := by nlinarith
    have hsqrt : 0 < Real.sqrt (1 - e * e) := Real.sqrt_pos.mpr h1e
    have hs0 : s = 0 := by
      rcases mul_eq_zero.mp hq with h | h
      · exact absurd h (ne_of_gt hsqrt)
      · exact h
    have hcc : c * c = 1 := by
      rw [hs0] at hsc
      nlinarith [hsc]
    rw [hq]
    have hzero : Gnco.atan2neg 0 (-e - c) = if -e - c < 0 then -π else 0 := by
      unfold Gnco.atan2neg
      rw [if_pos rfl]
    rw [hzero, mul_zero, zero_div]
    rcases mul_self_eq_one_iff.mp hcc with h1 | h1
    · rw [h1, if_pos (by linarith)]
      constructor <;> linarith
    · rw [h1, if_neg (by intro hcon; linarith)]
      constructor <;> linarith
  · have hkey := kepler_mean_mem e s c he0 he1 hsc hq
    have hrw : Gnco.atan2neg (Real.sqrt (1 - e * e) * s) (-e - c) =
        Gnco.atan2 (-(Real.sqrt (1 - e * e) * s)) (-e - c) := by
      unfold Gnco.atan2neg
      rw [if_neg hq]
    rw [hrw]
    exact ⟨le_of_lt hkey.1, hkey.2⟩

end Orbits

/-- C7: for every successfully constructed orbit, MeanAnomaly is the
identity when the orbit is circular, and for non-circular orbits it
returns a value in [0, 2*pi): wherever sin of the true anomaly vanishes,
Go's signed-zero Atan2 keeps the value at 0 (cos = 1) or pi (cos = -1),
and elsewhere the value lies strictly between 0 and 2*pi. -/
theorem c7_mean_anomaly_range (ra rp : ℝ) (o : Orbits.Elliptical) (ν : ℝ)
    (h : Orbits.NewElliptical ra rp = some o) :
    (o.IsCircular 0 → o.MeanAnomaly ν = ν) ∧
    (¬o.IsCircular 0 → 0 ≤ o.MeanAnomaly ν ∧ o.MeanAnomaly ν < 2 * π) := by
  constructor
  · intro hc
    unfold Orbits.Elliptical.MeanAnomaly
    rw [if_pos hc]
  · intro hnc
    obtain ⟨-, -, -, hecc⟩ := Orbits.newElliptical_inv ra rp o h
    obtain ⟨he0, he1⟩ := hecc hnc
    have hkey := Orbits.kepler_mean_go_mem o.Eccentricity (Real.sin ν) (Real.cos ν) he0 he1
      (Real.sin_sq_add_cos_sq ν)
    unfold Orbits.Elliptical.MeanAnomaly
    rw [if_neg hnc]
    exact hkey

/-- Witness for C7 at the orbit (2, 1) and true anomaly 1. -/
theorem c7_mean_anomaly_range_witness :
    Orbits.NewElliptical 2 1 = some ⟨2, 1⟩ ∧
      (((⟨2, 1⟩ : Orbits.Elliptical).IsCircular 0 →
        Orbits.Elliptical.MeanAnomaly ⟨2, 1⟩ 1 = 1) ∧
      (¬(⟨2, 1⟩ : Orbits.Elliptical).IsCircular 0 →
        0 ≤ Orbits.Elliptical.MeanAnomaly ⟨2, 1⟩ 1 ∧
          Orbits.Elliptical.MeanAnomaly ⟨2, 1⟩ 1 < 2 * π)) := by
  have hs : Orbits.NewElliptical 2 1 = some ⟨2, 1⟩ := by
    rw [Orbits.newElliptical_some 2 1 (by norm_num) (by norm_num)]
    norm_num
  exact ⟨hs, c7_mean_anomaly_range 2 1 ⟨2, 1⟩ 1 hs⟩

/-- C6: TrueAnomalyFromElapsedSincePeriapsis returns the not-a-number
sentinel (modelled as none) iff the abstract Newton-type solver reports
non-convergence (negative iteration count, as the Go code checks
convergedIn < 0); whenever it converges, the result is the absolute value
of the half-angle-tangent mapping of the solved eccentric anomaly and lies
in [0, pi]. -/
theorem c6_sentinel_iff_nonconvergence (o : Orbits.Elliptical)
    (solver : ℝ → ℝ → (ℝ → ℝ) → ℝ × ℤ) (gravParam elapsed tol : ℝ) :
    (o.TrueAnomalyFromElapsedSincePeriapsis solver gravParam elapsed tol = none ↔
      (solver tol (2 * π * elapsed / o.Period gravParam - o.Eccentricity / 2)
        (fun x => x - o.Eccentricity * Real.sin x -
          2 * π * elapsed / o.Period gravParam)).2 < 0) ∧
    (∀ v, o.TrueAnomalyFromElapsedSincePeriapsis solver gravParam elapsed tol = some v →
      v = |2 * Real.arctan (Real.sqrt ((1 + o.Eccentricity) / (1 - o.Eccentricity)) *
          Real.tan ((solver tol (2 * π * elapsed / o.Period gravParam - o.Eccentricity / 2)
            (fun x => x - o.Eccentricity * Real.sin x -
              2 * π * elapsed / o.Period gravParam)).1 / 2))| ∧
        0 ≤ v ∧ v ≤ π) := by
  have hval : o.TrueAnomalyFromElapsedSincePeriapsis solver gravParam elapsed tol =
      if (solver tol (2 * π * elapsed / o.Period gravParam - o.Eccentricity / 2)
          (fun x => x - o.Eccentricity * Real.sin x -
            2 * π * elapsed / o.Period gravParam)).2 < 0
      then none
      else some |2 * Real.arctan (Real.sqrt ((1 + o.Eccentricity) / (1 - o.Eccentricity)) *
        Real.tan ((solver tol (2 * π * elapsed / o.Period gravParam - o.Eccentricity / 2)
          (fun x => x - o.Eccentricity * Real.sin x -
            2 * π * elapsed / o.Period gravParam)).1 / 2))| := rfl
  rw [hval]
  by_cases hc : (solver tol (2 * π * elapsed / o.Period gravParam - o.Eccentricity / 2)
      (fun x => x - o.Eccentricity * Real.sin x -
        2 * π * elapsed / o.Period gravParam)).2 < 0
  · rw [if_pos hc]
    refine ⟨by simp [hc], ?_⟩
    intro v hv
    exact absurd hv (by simp)
  · rw [if_neg hc]
    refine ⟨by simp [hc], ?_⟩
    intro v hv
    have hveq := Option.some.inj hv
    refine ⟨hveq.symm, by rw [← hveq]; exact abs_nonneg _, ?_⟩
    rw [← hveq]
    set t := Real.arctan (Real.sqrt ((1 + o.Eccentricity) / (1 - o.Eccentricity)) *
      Real.tan ((solver tol (2 * π * elapsed / o.Period gravParam - o.Eccentricity / 2)
        (fun x => x - o.Eccentricity * Real.sin x -
          2 * π * elapsed / o.Period gravParam)).1 / 2)) with ht
    have h1 : t < π / 2 := Real.arctan_lt_pi_div_two _
    have h2 : -(π / 2) < t := Real.neg_pi_div_two_lt_arctan _
    rw [abs_le]
    constructor <;> linarith

/-- Witness for C6: with a solver that converges immediately to 0 the
function returns some 0, which is the half-angle value and lies in [0, pi]. -/
theorem c6_sentinel_iff_nonconvergence_witness :
    Orbits.Elliptical.TrueAnomalyFromElapsedSincePeriapsis ⟨4, 2⟩
        (fun _ _ _ => (0, 0)) 1 0 1 = some 0 ∧
      ((0 : ℝ) = abs (2 * Real.arctan (Real.sqrt
          ((1 + Orbits.Elliptical.Eccentricity ⟨4, 2⟩) /
            (1 - Orbits.Elliptical.Eccentricity ⟨4, 2⟩)) *
          Real.tan ((((fun (_ : ℝ) (_ : ℝ) (_ : ℝ → ℝ) => ((0 : ℝ), (0 : ℤ))) 1
            (2 * π * 0 / Orbits.Elliptical.Period ⟨4, 2⟩ 1 -
              Orbits.Elliptical.Eccentricity ⟨4, 2⟩ / 2)
            (fun x => x - Orbits.Elliptical.Eccentricity ⟨4, 2⟩ * Real.sin x -
              2 * π * 0 / Orbits.Elliptical.Period ⟨4, 2⟩ 1)).1 / 2)))) ∧
        (0 : ℝ) ≤ 0 ∧ (0 : ℝ) ≤ π) := by
  have hsome : Orbits.Elliptical.TrueAnomalyFromElapsedSincePeriapsis ⟨4, 2⟩
      (fun _ _ _ => (0, 0)) 1 0 1 = some 0 := by
    unfold Orbits.Elliptical.TrueAnomalyFromElapsedSincePeriapsis
    norm_num
  exact ⟨hsome,
    (c6_sentinel_iff_nonconvergence ⟨4, 2⟩ (fun _ _ _ => (0, 0)) 1 0 1).2 0 hsome⟩

namespace Gnco

/-- Frame tags; in Go this is a rune-typed enumeration and any value
outside the four constants panics in every conversion, so the closed
enumeration is modelled as an inductive type. -/
inductive Frame where
  | inertial
  | geographic
  | velocity
  | body

/-- Orientation: the three link rotation tensors of the chain
Inertial - Geographic - Velocity - Body. As computed by the library
(TGI = TGE * TEI and so on), each stored tensor maps coordinates of the
frame nearer Inertial to coordinates of the frame nearer Body: TGI maps
inertial to geographic, TVG geographic to velocity, TBV velocity to body. -/
structure Orientation where
  TBV : Mat3
  TVG : Mat3
  TGI : Mat3

/-- Frame.ToInertial with the Go fallthrough chain flattened. -/
def Frame.ToInertial (F : Frame) (dir : Orientation) (frameVec : Vec3) : Vec3 :=
  match F with
  | .body => mulMatVecTrans dir.TGI (mulMatVecTrans dir.TVG (mulMatVecTrans dir.TBV frameVec))
  | .velocity => mulMatVecTrans dir.TGI (mulMatVecTrans dir.TVG frameVec)
  | .geographic => mulMatVecTrans dir.TGI frameVec
  | .inertial => frameVec

/-- Frame.ToGeographic with the Go fallthrough chain flattened. -/
def Frame.ToGeographic (F : Frame) (v : Orientation) (frameVec : Vec3) : Vec3 :=
  match F with
  | .body => mulMatVecTrans v.TVG (mulMatVecTrans v.TBV frameVec)
  | .velocity => mulMatVecTrans v.TVG frameVec
  | .geographic => frameVec
  | .inertial => mulMatVec v.TGI frameVec

/-- Frame.ToVelocity with the Go fallthrough chain flattened. -/
def Frame.ToVelocity (F : Frame) (v : Orientation) (frameVec : Vec3) : Vec3 :=
  match F with
  | .body => mulMatVecTrans v.TBV frameVec
  | .velocity => frameVec
  | .inertial => mulMatVec v.TVG (mulMatVec v.TGI frameVec)
  | .geographic => mulMatVec v.TVG frameVec

/-- Frame.ToBody with the Go fallthrough chain flattened. -/
def Frame.ToBody (F : Frame) (v : Orientation) (frameVec : Vec3) : Vec3 :=
  match F with
  | .inertial => mulMatVec v.TBV (mulMatVec v.TVG (mulMatVec v.TGI frameVec))
  | .geographic => mulMatVec v.TBV (mulMatVec v.TVG frameVec)
  | .velocity => mulMatVec v.TBV frameVec
  | .body => frameVec

/-- Position of a frame along the chain, Inertial end first. -/
def Frame.chainIndex : Frame → ℕ
  | .inertial => 0
  | .geographic => 1
  | .velocity => 2
  | .body => 3

/-- Link tensor number k sits between chain positions k-1 and k. -/
def linkTensor (d : Orientation) (k : ℕ) : Mat3 :=
  if k = 1 then d.TGI else if k = 2 then d.TVG else d.TBV

/-- Per-link chain conversion: apply, once per link strictly between the
source and destination positions, the stored link tensor - forward when
moving away from Inertial, transposed when moving toward Inertial; the
identity when source equals destination. -/
def chainConv (d : Orientation) (src dst : Frame) (v : Vec3) : Vec3 :=
  let i := src.chainIndex
  let j := dst.chainIndex
  if i ≤ j then
    (List.range' (i + 1) (j - i)).foldl (fun w k => mulMatVec (linkTensor d k) w) v
  else
    (List.range' (j + 1) (i - j)).reverse.foldl
      (fun w k => mulMatVecTrans (linkTensor d k) w) v

/-- A concrete orientation whose geographic-to-inertial link tensor is an
asymmetric permutation, used to separate forward from transposed use. -/
def d9 : Orientation :=
  { TBV := mat3 1 0 0 0 1 0 0 0 1
    TVG := mat3 1 0 0 0 1 0 0 0 1
    TGI := mat3 0 1 0 0 0 1 1 0 0 }

end Gnco

/-- C9 counterexample: converting (1,0,0) from geographic to inertial, the
code applies the transpose of the stored TGI (yielding second component 1),
not the forward tensor that the claim prescribes for motion toward
Inertial (which would yield second component 0), so the two disagree. -/
theorem c9_transpose_direction_counterexample :
    Gnco.Frame.geographic.ToInertial Gnco.d9 (Gnco.vec3 1 0 0) 1 = 1 ∧
      Gnco.mulMatVec Gnco.d9.TGI (Gnco.vec3 1 0 0) 1 = 0 ∧
      Gnco.Frame.geographic.ToInertial Gnco.d9 (Gnco.vec3 1 0 0) ≠
        Gnco.mulMatVec Gnco.d9.TGI (Gnco.vec3 1 0 0) := by
  have h1 : Gnco.Frame.geographic.ToInertial Gnco.d9 (Gnco.vec3 1 0 0) 1 = 1 := by
    simp [Gnco.Frame.ToInertial, Gnco.mulMatVecTrans, Gnco.d9, Gnco.mat3, Gnco.vec3,
      Matrix.mulVec, Matrix.dotProduct, Fin.sum_univ_three, Matrix.transpose]
  have h2 : Gnco.mulMatVec Gnco.d9.TGI (Gnco.vec3 1 0 0) 1 = 0 := by
    simp [Gnco.mulMatVec, Gnco.d9, Gnco.mat3, Gnco.vec3,
      Matrix.mulVec, Matrix.dotProduct, Fin.sum_univ_three]
  refine ⟨h1, h2, fun hcon => ?_⟩
  have hx := congrFun hcon 1
  rw [h1, h2] at hx
  norm_num at hx

/-- C9 amended: a conversion with equal source and destination is the
identity, and every conversion applies exactly one stored link tensor per
link strictly between source and destination - transposed when moving
toward Inertial and forward (non-transposed) when moving away from
Inertial (the claim states the two directions the other way around). -/
theorem c9_frame_chain_conversions (d : Gnco.Orientation) (v : Gnco.Vec3) :
    (Gnco.Frame.inertial.ToInertial d v = v ∧
      Gnco.Frame.geographic.ToGeographic d v = v ∧
      Gnco.Frame.velocity.ToVelocity d v = v ∧
      Gnco.Frame.body.ToBody d v = v) ∧
    (∀ F : Gnco.Frame, F.ToInertial d v = Gnco.chainConv d F .inertial v) ∧
    (∀ F : Gnco.Frame, F.ToGeographic d v = Gnco.chainConv d F .geographic v) ∧
    (∀ F : Gnco.Frame, F.ToVelocity d v = Gnco.chainConv d F .velocity v) ∧
    (∀ F : Gnco.Frame, F.ToBody d v = Gnco.chainConv d F .body v) := by
  refine ⟨⟨rfl, rfl, rfl, rfl⟩, ?_, ?_, ?_, ?_⟩ <;>
    intro F <;> cases F <;> rfl

namespace Gnco

/-- Coordinates: the two-variant capability set (spherical geocentric,
oblate geodesic); both variants carry the geocentric state, as in the Go
source where GeodesicCoords wraps a GeocentricCoords and delegates its
SetFromEarthFixedCoords and TGE to it. -/
inductive Coord where
  | geocentric (c : GeocentricCoords)
  | geodesic (c : GeocentricCoords)

/-- Coord.world reports the owning planet model. -/
def Coord.world : Coord → World
  | .geocentric c => c.w
  | .geodesic c => c.w

/-- Coord.agravG dispatches the gravity model on the variant. -/
def Coord.agravG : Coord → Vec3
  | .geocentric c => c.AGravG
  | .geodesic c => (GeodesicCoords.mk c).AGravG

/-- Coord.tge: both variants share the geocentric TGE. -/
def Coord.tge : Coord → Mat3
  | .geocentric c => c.TGE
  | .geodesic c => c.TGE

/-- Coord.setFromEarthFixedCoords overwrites the whole coordinate state
from an earth-fixed position and epoch, preserving variant and world. -/
def Coord.setFromEarthFixedCoords : Coord → Vec3 → ℝ → Coord
  | .geocentric c, sBIE, t => .geocentric (c.w.GeocentricFromEarthFixedCoords sBIE t)
  | .geodesic c, sBIE, t => .geodesic (c.w.GeocentricFromEarthFixedCoords sBIE t)

/-- One derivative evaluation of PhysicsPointIntegrator.accel at stage
time t and inertial position SBII: rotate into the earth-fixed frame via
TEI, re-derive the bound coordinate system from that position, build
TGI = TGE * TEI, and rotate the sum of the held internal acceleration and
gravity into the inertial frame by the transpose of TGI. -/
def accelStage (coord : Coord) (accelInternalG : Vec3) (t : ℝ) (SBII : Vec3) :
    Vec3 × Coord :=
  let w := coord.world
  let TEI := w.TEI t
  let SBIE := mulMatVec TEI SBII
  let coord2 := coord.setFromEarthFixedCoords SBIE t
  let TGE := coord2.tge
  let TGI := mulMat3 TGE TEI
  let accelGravity := coord2.agravG
  let ABII := add3 accelInternalG accelGravity
  (mulMatVecTrans TGI ABII, coord2)

/-- PhysicsPointIntegrator.accel over the stage evaluations requested by
the stepping kernel within one Step call: accelInternalG is
phys.lastInternalAccel, set once by Step from the caller's external
geographic-frame acceleration and read once for all stages; the coordinate
system is mutated in place at each stage, in order. The RKN1210 kernel
itself lives in internal/ode, outside the observed sources, and is
abstracted as the arbitrary list of stage times and positions it requests. -/
def accel (coord : Coord) (accelInternalG : Vec3) :
    List (ℝ × Vec3) → List Vec3 × Coord
  | [] => ([], coord)
  | (t, y) :: rest =>
    let s := accelStage coord accelInternalG t y
    let r := accel s.2 accelInternalG rest
    (s.1 :: r.1, r.2)

/-- The per-stage acceleration the claim prescribes: the transpose of
TGE * TEI at the stage time - with the coordinate system re-derived from
the stage's earth-fixed position - applied to the sum of the external
acceleration and the re-derived coordinate system's gravity. -/
def stageAccel (coord : Coord) (aExt : Vec3) (st : ℝ × Vec3) : Vec3 :=
  mulMatVecTrans
    (mulMat3 ((coord.setFromEarthFixedCoords (mulMatVec (coord.world.TEI st.1) st.2) st.1).tge)
      (coord.world.TEI st.1))
    (add3 aExt ((coord.setFromEarthFixedCoords (mulMatVec (coord.world.TEI st.1) st.2) st.1).agravG))

/-- Helper: re-deriving preserves the owning world. -/
theorem Coord.setFrom_world (c : Coord) (a : Vec3) (s : ℝ) :
    (c.setFromEarthFixedCoords a s).world = c.world := by
  cases c <;> rfl

/-- Helper: re-deriving twice keeps only the last assignment. -/
theorem Coord.setFrom_setFrom (c : Coord) (a : Vec3) (s : ℝ) (b : Vec3) (t : ℝ) :
    (c.setFromEarthFixedCoords a s).setFromEarthFixedCoords b t =
      c.setFromEarthFixedCoords b t := by
  cases c <;> rfl

/-- Helper: the prescribed stage acceleration is unchanged by an earlier
re-derivation of the coordinate system. -/
theorem stageAccel_setFrom (c : Coord) (a : Vec3) (s : ℝ) (aExt : Vec3) (st : ℝ × Vec3) :
    stageAccel (c.setFromEarthFixedCoords a s) aExt st = stageAccel c aExt st := by
  unfold stageAccel
  rw [Coord.setFrom_world, Coord.setFrom_setFrom]

end Gnco

/-- C2: within one Step call the external geographic-frame acceleration is
held constant - every stage of the accel callback uses the same
accelInternalG - and each stage's returned inertial acceleration is the
transpose of TGE * TEI (with the coordinate system re-derived from that
stage's earth-fixed position TEI * SBII) applied to the sum of the
external acceleration and the re-derived gravity vector; in particular
each stage's output depends only on its own time and position, not on the
coordinate state left by earlier stages. -/
theorem c2_step_accel_stages (coord : Gnco.Coord) (aExt : Gnco.Vec3)
    (stages : List (ℝ × Gnco.Vec3)) :
    (Gnco.accel coord aExt stages).1 = stages.map (Gnco.stageAccel coord aExt) := by
  induction stages generalizing coord with
  | nil => rfl
  | cons hd rest ih =>
    obtain ⟨t, y⟩ := hd
    show (Gnco.accelStage coord aExt t y).1 ::
        (Gnco.accel (Gnco.accelStage coord aExt t y).2 aExt rest).1 =
      Gnco.stageAccel coord aExt (t, y) :: rest.map (Gnco.stageAccel coord aExt)
    have hhead : (Gnco.accelStage coord aExt t y).1 = Gnco.stageAccel coord aExt (t, y) := rfl
    have hsnd : (Gnco.accelStage coord aExt t y).2 =
        coord.setFromEarthFixedCoords (Gnco.mulMatVec (coord.world.TEI t) y) t := rfl
    rw [hhead, ih, hsnd]
    have hfun : Gnco.stageAccel
        (coord.setFromEarthFixedCoords (Gnco.mulMatVec (coord.world.TEI t) y) t) aExt =
        Gnco.stageAccel coord aExt :=
      funext fun st => Gnco.stageAccel_setFrom coord _ t aExt st
    rw [hfun]
